import Mathlib

/-!
Shallow embedding of `src/main.py` (pond temperature sender firmware):
a cycle loop that reads external DS18X20 one-wire sensors and an onboard
sensor, aggregates a per-cycle batch with a running group min/max, and
broadcasts the batch as JSON over UDP.

Temperatures are modelled as rationals (`ℚ`); Python float arithmetic on
the values involved (sums, division by a list length, comparisons,
min/max) is modelled exactly.  Epoch timestamps are a `Nat` parameter
threaded into each cycle (the program stamps each record with the clock;
the claims under study do not depend on the distinct per-record times, so
a cycle carries one timestamp).  One-wire device addresses appear in the
program only through their hex-string form `rom_to_hex(rom)`, so a rom is
modelled directly as its hex string.
-/

/-- Configuration constant `LOW_ALARM_TEMP = 20.0` from src/main.py. -/
def LOW_ALARM_TEMP : ℚ := 20

/-- Configuration constant `HIGH_ALARM_TEMP = 25.0` from src/main.py. -/
def HIGH_ALARM_TEMP : ℚ := 25

/-- Constant `TYPE_HARDWARE = "Hardware"` from src/main.py. -/
def TYPE_HARDWARE : String := "Hardware"

/-- The static placement table `SENSOR_PLACEMENTS` from src/main.py,
keyed by the hex form of the device address. -/
def SENSOR_PLACEMENTS : List (String × String) :=
  [("28fd93df0d000054", "Pump housing"),
   ("2825d05704e13c71", "Pond"),
   ("287e9d5704e13ca2", "Pond")]

/-- `get_value_from_dict(dictionary, key)` from src/main.py:
`dictionary.get(key, None)`. -/
def get_value_from_dict (dictionary : List (String × String)) (key : String) :
    Option String :=
  (dictionary.find? (fun p => p.1 == key)).map (fun p => p.2)

/-- Python `str` applied to the result of `get_value_from_dict`:
`str(None)` is the literal string `"None"`. -/
def strOfOption : Option String → String
  | some s => s
  | none => "None"

/-- `get_resolution(sensor, rom)` from src/main.py, as a function of
scratchpad byte 4.  The Python source is `read_scratch(rom)[4] & 0x60 >> 5`;
`>>` binds tighter than `&` in Python, so this is `byte4 & (0x60 >> 5)`,
i.e. `byte4 & 3`. -/
def get_resolution (scratch4 : Nat) : Nat :=
  scratch4 &&& (0x60 >>> 5)

/-- The resolution extraction the spec describes (and the mask/shift pair
in the source clearly intends): the 2-bit resolution code held in bits 5-6
of the configuration byte, `(byte4 & 0x60) >> 5`.  Kept separate from
`get_resolution` to compare the code with the spec's words. -/
def resolution_code_intended (scratch4 : Nat) : Nat :=
  (scratch4 &&& 0x60) >>> 5

/-- One external DS18X20 reading as the bus delivers it to the program:
the device address (hex form), the temperature returned by
`ds_sensor.read_temp(rom)`, and scratchpad byte 4 returned by
`ds_sensor.read_scratch(rom)[4]`. -/
structure ExtReading where
  rom : String
  tempC : ℚ
  scratch4 : Nat
deriving DecidableEq, Repr

/-- The dict built per external sensor in `external_sensors` in
src/main.py. -/
structure Measurement where
  type_ : String
  value : ℚ
  sensor : String
  location : String
  time : Nat
  resolution_raw : Nat
  resolution_bits : Nat
  alarm : Bool
deriving DecidableEq, Repr

/-- `external_sensors(roms, ds_sensor)` from src/main.py: builds one
`Measurement` per discovered rom, in bus order, classifying the alarm
against the process-wide thresholds and looking the location up in
`SENSOR_PLACEMENTS` (missing entries become the string "None"). -/
def external_sensors (roms : List ExtReading) (t : Nat) : List Measurement :=
  roms.map fun r =>
    { type_ := TYPE_HARDWARE
      value := r.tempC
      sensor := r.rom
      location := strOfOption (get_value_from_dict SENSOR_PLACEMENTS r.rom)
      time := t
      resolution_raw := get_resolution r.scratch4
      resolution_bits := get_resolution r.scratch4 * 9 + 9
      alarm := if r.tempC < LOW_ALARM_TEMP ∨ r.tempC > HIGH_ALARM_TEMP
               then true else false }

/-- The heterogeneous records appended to the per-cycle `measures` list in
`main()` in src/main.py: per-sensor measurements, the onboard sample
(line 185), the per-group average record (line 189), max record
(line 202), min record (line 203) and summary record (line 206). -/
inductive TelemetryRecord where
  | measurement (m : Measurement)
  | onboard (value max_c min_c : ℚ) (time : Nat)
  | avgRec (location : String) (value : ℚ) (time : Nat)
  | maxRec (location : String) (value : ℚ) (time : Nat)
  | minRec (location : String) (value : ℚ) (time : Nat)
  | summaryRec (location : String) (avg min max : ℚ)
deriving DecidableEq, Repr

/-- `entry.get("location")` on a batch record: every record the program
builds carries a "location" key. -/
def TelemetryRecord.location? : TelemetryRecord → Option String
  | .measurement m => some m.location
  | .onboard _ _ _ _ => some "onboard"
  | .avgRec l _ _ => some l
  | .maxRec l _ _ => some l
  | .minRec l _ _ => some l
  | .summaryRec l _ _ _ => some l

/-- `entry["value"]` on a batch record.  The summary record carries no
"value" key (in Python the lookup would raise); it is the one record
appended after the only `avg_from_json` call, so the total default 0 is
never consulted. -/
def TelemetryRecord.value? : TelemetryRecord → Option ℚ
  | .measurement m => some m.value
  | .onboard v _ _ _ => some v
  | .avgRec _ v _ => some v
  | .maxRec _ v _ => some v
  | .minRec _ v _ => some v
  | .summaryRec _ _ _ _ => none

/-- `avg_from_json(json_array, key, condition_key, condition_val)` from
src/main.py, specialised to the keys of its single call site
(`key="value"`, `condition_key="location"`): filter the records whose
location equals `condition_val`, extract their values, and return
`sum(values)/len(values) if values else 0`. -/
def avg_from_json (json_array : List TelemetryRecord) (condition_val : String) : ℚ :=
  let values := (json_array.filter
      (fun e => e.location? == some condition_val)).map
      (fun e => e.value?.getD 0)
  if values = [] then 0 else values.sum / (values.length : ℚ)

/-- The onboard sample as delivered by `onboard_temp_sensor` (class
`OnboardTemp` lives in `pico_hardware`, outside this repository's core;
the cycle only copies its `current_temp`, `maximum` and `minimum` fields
into the onboard record, so they enter the model as cycle inputs). -/
structure OnboardReading where
  value : ℚ
  maximum : ℚ
  minimum : ℚ
deriving DecidableEq, Repr

/-- Everything the environment supplies to one iteration of the main
loop: the external bus readings (in discovery order), the onboard sample,
and the epoch time. -/
structure CycleInput where
  readings : List ExtReading
  onboard : OnboardReading
  time : Nat
deriving DecidableEq, Repr

/-- Lines 192-199 of src/main.py.  The loop's `c_max`/`c_min` pair is
`None, None` initially and always assigned together, modelled as
`Option (ℚ × ℚ)` (max first, as in the source's update order):
```
if c_max is None: c_max = avg; c_min = avg
else:
    if c_max < avg: c_max = avg
    if c_min > avg: c_min = avg
```
-/
def updateMinMax : Option (ℚ × ℚ) → ℚ → ℚ × ℚ
  | none, avg => (avg, avg)
  | some (c_max, c_min), avg =>
      (if c_max < avg then avg else c_max,
       if c_min > avg then avg else c_min)

/-- The batch contents at line 188 of src/main.py, when `avg_from_json`
is applied: the external measurements (discovery order) with the onboard
record appended (line 185). -/
def cycleMeasuresPre (inp : CycleInput) : List TelemetryRecord :=
  (external_sensors inp.readings inp.time).map TelemetryRecord.measurement
    ++ [TelemetryRecord.onboard inp.onboard.value inp.onboard.maximum
          inp.onboard.minimum inp.time]

/-- `average_pond_temp` of a cycle (line 188 of src/main.py):
`avg_from_json(measures, "value", "location", "Pond")`. -/
def cycleAvg (inp : CycleInput) : ℚ :=
  avg_from_json (cycleMeasuresPre inp) "Pond"

/-- One successful pass through the loop body of `main()` (lines
177-215 of src/main.py): build the measurements and onboard record,
append the average record, update `c_max`/`c_min`, append the max, min
and summary records.  Returns the new `(c_max, c_min)` state and the
batch that is encoded and sent. -/
def cycleBatch (st : Option (ℚ × ℚ)) (inp : CycleInput) :
    Option (ℚ × ℚ) × List TelemetryRecord :=
  let measures := cycleMeasuresPre inp
  let average_pond_temp := avg_from_json measures "Pond"
  let cm := updateMinMax st average_pond_temp
  (some cm,
   measures
     ++ [TelemetryRecord.avgRec "Pond" average_pond_temp inp.time,
         TelemetryRecord.maxRec "Pond" cm.1 inp.time,
         TelemetryRecord.minRec "Pond" cm.2 inp.time,
         TelemetryRecord.summaryRec "Pond" average_pond_temp cm.2 cm.1])

/-- Where an exception can abort the cycle body relative to the
`c_max`/`c_min` update: `busRead` stands for any raise before the update
(lines 179-189: `convert_temp`, the sensor reads in `external_sensors`,
the onboard read, `avg_from_json`); `encode` for `ujson.dumps`
(line 211) and `send` for `sock.sendto` (line 215), both after it. -/
inductive CycleFault where
  | busRead
  | encode
  | send
deriving DecidableEq, Repr

/-- One iteration of the `while` loop of `main()` under the bare
`try/except: pass` (lines 176-218 of src/main.py): the result is the
`(c_max, c_min)` state carried into the next iteration, together with
`some batch` when `sendto` was reached (the datagram of the cycle) and
`none` when the cycle raised and the batch was discarded. -/
def runCycle (st : Option (ℚ × ℚ)) (inp : CycleInput)
    (fault : Option CycleFault) :
    Option (ℚ × ℚ) × Option (List TelemetryRecord) :=
  match fault with
  | some CycleFault.busRead => (st, none)
  | some CycleFault.encode => ((cycleBatch st inp).1, none)
  | some CycleFault.send => ((cycleBatch st inp).1, none)
  | none => ((cycleBatch st inp).1, some (cycleBatch st inp).2)

/-- The loop of `main()` over a finite window of iterations, threading
the `c_max`/`c_min` state: returns the state after the window and, per
iteration, the datagram sent (or `none` for a cycle whose body raised). -/
def runLoop (st : Option (ℚ × ℚ)) :
    List (CycleInput × Option CycleFault) →
    Option (ℚ × ℚ) × List (Option (List TelemetryRecord))
  | [] => (st, [])
  | (inp, f) :: rest =>
      let r := runCycle st inp f
      let rl := runLoop r.1 rest
      (rl.1, r.2 :: rl.2)

/-- The values carried by the `type: "avg_temp"` records of a batch. -/
def avgRecordValues (batch : List TelemetryRecord) : List ℚ :=
  batch.filterMap fun r =>
    match r with
    | .avgRec _ v _ => some v
    | _ => none

/-- The values carried by the `type: "max"` records of a batch. -/
def maxRecordValues (batch : List TelemetryRecord) : List ℚ :=
  batch.filterMap fun r =>
    match r with
    | .maxRec _ v _ => some v
    | _ => none

/-- The values carried by the `type: "min"` records of a batch. -/
def minRecordValues (batch : List TelemetryRecord) : List ℚ :=
  batch.filterMap fun r =>
    match r with
    | .minRec _ v _ => some v
    | _ => none

/-- The `(avg, min, max)` triples of the `type: "summary"` records of a
batch. -/
def summaryRecords (batch : List TelemetryRecord) : List (ℚ × ℚ × ℚ) :=
  batch.filterMap fun r =>
    match r with
    | .summaryRec _ a n m => some (a, n, m)
    | _ => none

/-- Observable side effects of `connect_to_wlan` in src/main.py:
activating the interface, issuing `wlan.connect(ssid, password)`, and a
`flasher(led, delay_ms, times)` pulse pattern. -/
inductive WlanEvent where
  | activate
  | connectReq
  | flash (delay_ms times : Nat)
deriving DecidableEq, Repr

/-- The `while not wlan.isconnected()` loop of `connect_to_wlan` (lines
70-74 of src/main.py), driven by the successive results `polls` of the
`isconnected` predicate: each `false` poll flashes the retry pattern
`flasher(led, 20, 20)` and sleeps; a `true` poll exits the loop.  The
second component is `true` when the loop exited within the observed
window and `false` when every observed poll failed (the function is still
blocked, it has not returned). -/
def wlanPollLoop : List Bool → List WlanEvent × Bool
  | [] => ([], false)
  | b :: rest =>
      if b then ([], true)
      else
        let r := wlanPollLoop rest
        (WlanEvent.flash 20 20 :: r.1, r.2)

/-- `connect_to_wlan(ssid, password)` (lines 60-79 of src/main.py):
flash the startup pattern `flasher(led, 5, 10)`, activate the interface,
issue `wlan.connect(ssid, password)` once, then poll `isconnected`.
Returns the event trace and whether the function has returned within the
observed poll window. -/
def connect_to_wlan (polls : List Bool) : List WlanEvent × Bool :=
  let r := wlanPollLoop polls
  (WlanEvent.flash 5 10 :: WlanEvent.activate :: WlanEvent.connectReq :: r.1,
   r.2)

/-- Number of `wlan.connect` requests in a trace. -/
def countConnectReqs (evs : List WlanEvent) : Nat :=
  (evs.filter fun e =>
    match e with
    | WlanEvent.connectReq => true
    | _ => false).length

/-- Spec-side observer: the arithmetic mean of the cycle's Measurement
values whose location equals `group`, and 0 when none match. -/
def groupMeanSpec (inp : CycleInput) (group : String) : ℚ :=
  let vals := ((external_sensors inp.readings inp.time).filter
      (fun m => m.location == group)).map Measurement.value
  if vals = [] then 0 else vals.sum / (vals.length : ℚ)

theorem filter_measures (ms : List Measurement) :
    (((ms.map TelemetryRecord.measurement).filter
        (fun e => e.location? == some "Pond")).map
        (fun e => e.value?.getD 0)) =
      (ms.filter (fun m => m.location == "Pond")).map Measurement.value := by
  induction ms with
  | nil => rfl
  | cons m rest ih =>
      by_cases h : m.location == "Pond"
      · simp only [List.map_cons, List.filter_cons, TelemetryRecord.location?,
          Option.some.injEq] at *
        rw [if_pos (by simpa using h), if_pos h, List.map_cons, List.map_cons, ih]
        rfl
      · simp only [List.map_cons, List.filter_cons, TelemetryRecord.location?,
          Option.some.injEq] at *
        rw [if_neg (by simpa using h), if_neg h, ih]

theorem cycleAvg_eq_groupMeanSpec (inp : CycleInput) :
    cycleAvg inp = groupMeanSpec inp "Pond" := by
  have honb : ([TelemetryRecord.onboard inp.onboard.value inp.onboard.maximum
      inp.onboard.minimum inp.time].filter
      (fun e => e.location? == some "Pond")) = [] := rfl
  simp only [cycleAvg, avg_from_json, cycleMeasuresPre, groupMeanSpec,
    List.filter_append, honb, List.append_nil, filter_measures]

theorem cycleBatch_fst (st : Option (ℚ × ℚ)) (inp : CycleInput) :
    (cycleBatch st inp).1 = some (updateMinMax st (cycleAvg inp)) := rfl

theorem cycleBatch_snd (st : Option (ℚ × ℚ)) (inp : CycleInput) :
    (cycleBatch st inp).2 =
      (external_sensors inp.readings inp.time).map TelemetryRecord.measurement
      ++ [TelemetryRecord.onboard inp.onboard.value inp.onboard.maximum
            inp.onboard.minimum inp.time,
          TelemetryRecord.avgRec "Pond" (cycleAvg inp) inp.time,
          TelemetryRecord.maxRec "Pond" (updateMinMax st (cycleAvg inp)).1
            inp.time,
          TelemetryRecord.minRec "Pond" (updateMinMax st (cycleAvg inp)).2
            inp.time,
          TelemetryRecord.summaryRec "Pond" (cycleAvg inp)
            (updateMinMax st (cycleAvg inp)).2
            (updateMinMax st (cycleAvg inp)).1] := by
  simp [cycleBatch, cycleMeasuresPre, cycleAvg]

theorem filterMap_measurements_nil {α : Type} (g : TelemetryRecord → Option α)
    (h1 : ∀ m, g (TelemetryRecord.measurement m) = none)
    (ms : List Measurement) :
    (ms.map TelemetryRecord.measurement).filterMap g = [] := by
  induction ms with
  | nil => rfl
  | cons m rest ih => simp [List.filterMap_cons, h1, ih]

theorem updateMinMax_some_eq (M N a : ℚ) :
    updateMinMax (some (M, N)) a = (max M a, min N a) := by
  simp only [updateMinMax]
  refine Prod.ext ?_ ?_
  · rcases le_or_lt a M with h | h
    · rw [if_neg (not_lt.mpr h), max_eq_left h]
    · rw [if_pos h, max_eq_right h.le]
  · rcases le_or_lt N a with h | h
    · rw [if_neg (not_lt.mpr h), min_eq_left h]
    · rw [if_pos h, min_eq_right h.le]

theorem updateMinMax_snd_le (st : Option (ℚ × ℚ)) (a : ℚ) :
    (updateMinMax st a).2 ≤ a := by
  cases st with
  | none => exact le_refl a
  | some p =>
      rw [updateMinMax_some_eq p.1 p.2 a]
      exact min_le_right p.2 a

theorem updateMinMax_fst_ge (st : Option (ℚ × ℚ)) (a : ℚ) :
    a ≤ (updateMinMax st a).1 := by
  cases st with
  | none => exact le_refl a
  | some p =>
      rw [updateMinMax_some_eq p.1 p.2 a]
      exact le_max_right p.1 a

/-- C1: in every cycle, the value carried by the `avg_temp` record and the
`avg` field of the summary record both equal the arithmetic mean of that
cycle's Measurement values whose location is the configured group "Pond",
and equal 0 when no Measurement matches (the empty-group guard in
`avg_from_json` returns 0 without dividing). -/
theorem avg_record_and_summary_carry_group_mean
    (st : Option (ℚ × ℚ)) (inp : CycleInput) :
    avgRecordValues (cycleBatch st inp).2 = [groupMeanSpec inp "Pond"] ∧
    (summaryRecords (cycleBatch st inp).2).map (fun s => s.1) =
      [groupMeanSpec inp "Pond"] := by
  constructor
  · rw [cycleBatch_snd st inp]
    unfold avgRecordValues
    rw [List.filterMap_append, filterMap_measurements_nil _ (fun _ => rfl)]
    simp [List.filterMap_cons, cycleAvg_eq_groupMeanSpec]
  · rw [cycleBatch_snd st inp]
    unfold summaryRecords
    rw [List.filterMap_append, filterMap_measurements_nil _ (fun _ => rfl)]
    simp [List.filterMap_cons, cycleAvg_eq_groupMeanSpec]

/-- C3: every cycle's transmitted batch is exactly: the per-device
Measurements in bus discovery order, then the onboard record, then the
group average record, then the group max record, then the group min
record, then one summary record carrying average, min and max together. -/
theorem batch_order (st : Option (ℚ × ℚ)) (inp : CycleInput) :
    ∃ a mx mn,
      (cycleBatch st inp).2 =
        (external_sensors inp.readings inp.time).map
          TelemetryRecord.measurement
        ++ [TelemetryRecord.onboard inp.onboard.value inp.onboard.maximum
              inp.onboard.minimum inp.time,
            TelemetryRecord.avgRec "Pond" a inp.time,
            TelemetryRecord.maxRec "Pond" mx inp.time,
            TelemetryRecord.minRec "Pond" mn inp.time,
            TelemetryRecord.summaryRec "Pond" a mn mx] :=
  ⟨cycleAvg inp, (updateMinMax st (cycleAvg inp)).1,
   (updateMinMax st (cycleAvg inp)).2, cycleBatch_snd st inp⟩

/-- C6: every summary record the loop produces satisfies
`min <= avg <= max` for that cycle's values (this holds for every cycle,
in particular after one with a non-empty group). -/
theorem summary_min_le_avg_le_max (st : Option (ℚ × ℚ)) (inp : CycleInput) :
    ∃ a n m, summaryRecords (cycleBatch st inp).2 = [(a, n, m)] ∧
      n ≤ a ∧ a ≤ m := by
  refine ⟨cycleAvg inp, (updateMinMax st (cycleAvg inp)).2,
    (updateMinMax st (cycleAvg inp)).1, ?_, updateMinMax_snd_le st _,
    updateMinMax_fst_ge st _⟩
  rw [cycleBatch_snd st inp]
  unfold summaryRecords
  rw [List.filterMap_append, filterMap_measurements_nil _ (fun _ => rfl)]
  simp [List.filterMap_cons]

/-- C4: once seeded, the lifetime group maximum never decreases and the
lifetime group minimum never increases across cycles (whatever the
cycle's outcome, faulted or successful), and the pair is never reset to
`None`. -/
theorem lifetime_min_max_monotone (M N : ℚ) (inp : CycleInput)
    (fault : Option CycleFault) :
    ∃ M2 N2, (runCycle (some (M, N)) inp fault).1 = some (M2, N2) ∧
      M ≤ M2 ∧ N2 ≤ N := by
  cases fault with
  | none =>
      refine ⟨max M (cycleAvg inp), min N (cycleAvg inp), ?_, le_max_left _ _,
        min_le_left _ _⟩
      rw [runCycle, cycleBatch_fst, updateMinMax_some_eq]
  | some f =>
      cases f with
      | busRead => exact ⟨M, N, rfl, le_refl M, le_refl N⟩
      | encode =>
          refine ⟨max M (cycleAvg inp), min N (cycleAvg inp), ?_,
            le_max_left _ _, min_le_left _ _⟩
          rw [runCycle, cycleBatch_fst, updateMinMax_some_eq]
      | send =>
          refine ⟨max M (cycleAvg inp), min N (cycleAvg inp), ?_,
            le_max_left _ _, min_le_left _ _⟩
          rw [runCycle, cycleBatch_fst, updateMinMax_some_eq]

/-- C7: a cycle whose body raises anywhere sends no datagram, and when
the raise is the bus read (before the `c_max`/`c_min` update) the loop
carries the previous lifetime state unchanged into the remaining
cycles, whose outputs are exactly those of the same run without the
faulted cycle. -/
theorem faulted_cycle_sends_nothing (st : Option (ℚ × ℚ)) (inp : CycleInput)
    (f : CycleFault) (rest : List (CycleInput × Option CycleFault)) :
    (runCycle st inp (some f)).2 = none ∧
    runLoop st ((inp, some CycleFault.busRead) :: rest) =
      ((runLoop st rest).1, none :: (runLoop st rest).2) := by
  constructor
  · cases f <;> rfl
  · rfl

/-- C10: the failure boundary is not atomic with respect to the
aggregate state: a cycle that raises at encode or send has already
updated `c_max`/`c_min`, its datagram is discarded, and every subsequent
cycle runs from the updated state. -/
theorem fault_after_update_keeps_new_state (st : Option (ℚ × ℚ))
    (inp : CycleInput) (rest : List (CycleInput × Option CycleFault)) :
    (runCycle st inp (some CycleFault.send)).2 = none ∧
    (runCycle st inp (some CycleFault.send)).1 =
      some (updateMinMax st (cycleAvg inp)) ∧
    (runCycle st inp (some CycleFault.encode)).1 =
      some (updateMinMax st (cycleAvg inp)) ∧
    runLoop st ((inp, some CycleFault.send) :: rest) =
      ((runLoop (some (updateMinMax st (cycleAvg inp))) rest).1,
       none :: (runLoop (some (updateMinMax st (cycleAvg inp))) rest).2) := by
  refine ⟨rfl, ?_, ?_, ?_⟩
  · rw [runCycle, cycleBatch_fst]
  · rw [runCycle, cycleBatch_fst]
  · simp only [runLoop, runCycle, cycleBatch_fst]

/-- C2: a Measurement built from an external sensor reading has
`alarm = true` exactly when its value is strictly below the low
threshold or strictly above the high threshold; boundary values are not
alarmed. -/
theorem alarm_iff_outside_thresholds (rs : List ExtReading) (t : Nat)
    (m : Measurement) (h : m ∈ external_sensors rs t) :
    m.alarm = true ↔
      (m.value < LOW_ALARM_TEMP ∨ m.value > HIGH_ALARM_TEMP) := by
  simp only [external_sensors, List.mem_map] at h
  obtain ⟨r, _, rfl⟩ := h
  by_cases hc : r.tempC < LOW_ALARM_TEMP ∨ r.tempC > HIGH_ALARM_TEMP
  · simp [hc]
  · simp [hc]

/-- Witness for `alarm_iff_outside_thresholds`: the measurement built
from a 26 °C reading of the Pond sensor `2825d05704e13c71` is a member of
the cycle's measurement list and is alarmed (26 > 25). -/
theorem alarm_iff_outside_thresholds_witness :
    ({ type_ := "Hardware", value := 26, sensor := "2825d05704e13c71",
       location := "Pond", time := 0, resolution_raw := 3,
       resolution_bits := 36, alarm := true } : Measurement) ∈
      external_sensors [⟨"2825d05704e13c71", 26, 127⟩] 0 ∧
    (({ type_ := "Hardware", value := 26, sensor := "2825d05704e13c71",
        location := "Pond", time := 0, resolution_raw := 3,
        resolution_bits := 36, alarm := true } : Measurement).alarm = true ↔
      (({ type_ := "Hardware", value := 26, sensor := "2825d05704e13c71",
          location := "Pond", time := 0, resolution_raw := 3,
          resolution_bits := 36, alarm := true } : Measurement).value <
            LOW_ALARM_TEMP ∨
       ({ type_ := "Hardware", value := 26, sensor := "2825d05704e13c71",
          location := "Pond", time := 0, resolution_raw := 3,
          resolution_bits := 36, alarm := true } : Measurement).value >
            HIGH_ALARM_TEMP)) :=
  ⟨by decide,
   alarm_iff_outside_thresholds [⟨"2825d05704e13c71", 26, 127⟩] 0
     { type_ := "Hardware", value := 26, sensor := "2825d05704e13c71",
       location := "Pond", time := 0, resolution_raw := 3,
       resolution_bits := 36, alarm := true } (by decide)⟩

/-- First cycle of a run in which the two Pond probes read 19 °C and
26 °C (both scratchpad byte 4 at its power-on value 0x7F); the onboard
sensor reads 21 °C. -/
def c5Input : CycleInput :=
  { readings := [⟨"2825d05704e13c71", 19, 127⟩, ⟨"287e9d5704e13ca2", 26, 127⟩],
    onboard := ⟨21, 30, 10⟩,
    time := 0 }

/-- Counterexample to C5 as stated: after the first cycle on `c5Input`
the matching Pond Measurement values seen so far are 19 and 26, so the
claimed accumulated maximum is 26, but the max record (and summary max)
carries 45/2 = 22.5, the cycle average: the loop accumulates min/max
over per-cycle group averages, not over Measurement values. -/
theorem min_max_not_over_measurement_values :
    ((external_sensors c5Input.readings c5Input.time).filter
        (fun m => m.location == "Pond")).map Measurement.value = [19, 26] ∧
    maxRecordValues (cycleBatch none c5Input).2 = [45 / 2] ∧
    (summaryRecords (cycleBatch none c5Input).2).map (fun s => s.2.2) =
      [45 / 2] ∧
    (45 / 2 : ℚ) ≠ 26 := by
  have hvals : ((external_sensors c5Input.readings c5Input.time).filter
      (fun m => m.location == "Pond")).map Measurement.value = [19, 26] := rfl
  have havg : cycleAvg c5Input = 45 / 2 := by
    rw [cycleAvg_eq_groupMeanSpec]
    simp only [groupMeanSpec, hvals]
    rw [if_neg (by simp)]
    norm_num
  refine ⟨hvals, ?_, ?_, by norm_num⟩
  · rw [cycleBatch_snd]
    unfold maxRecordValues
    rw [List.filterMap_append, filterMap_measurements_nil _ (fun _ => rfl)]
    simp [List.filterMap_cons, updateMinMax, havg]
  · rw [cycleBatch_snd]
    unfold summaryRecords
    rw [List.filterMap_append, filterMap_measurements_nil _ (fun _ => rfl)]
    simp [List.filterMap_cons, updateMinMax, havg]

theorem foldl_max_spec (M : ℚ) (l : List ℚ) :
    (l.foldl max M = M ∨ l.foldl max M ∈ l) ∧
    M ≤ l.foldl max M ∧ ∀ x ∈ l, x ≤ l.foldl max M := by
  induction l generalizing M with
  | nil => simp
  | cons a rest ih =>
      simp only [List.foldl_cons, List.mem_cons]
      obtain ⟨h1, h2, h3⟩ := ih (max M a)
      refine ⟨?_, le_trans (le_max_left M a) h2, ?_⟩
      · rcases h1 with h | h
        · rw [h]
          rcases max_choice M a with hm | hm
          · exact Or.inl hm
          · exact Or.inr (Or.inl hm)
        · exact Or.inr (Or.inr h)
      · intro x hx
        rcases hx with rfl | hx
        · exact le_trans (le_max_right M x) h2
        · exact h3 x hx

theorem foldl_min_spec (N : ℚ) (l : List ℚ) :
    (l.foldl min N = N ∨ l.foldl min N ∈ l) ∧
    l.foldl min N ≤ N ∧ ∀ x ∈ l, l.foldl min N ≤ x := by
  induction l generalizing N with
  | nil => simp
  | cons a rest ih =>
      simp only [List.foldl_cons, List.mem_cons]
      obtain ⟨h1, h2, h3⟩ := ih (min N a)
      refine ⟨?_, le_trans h2 (min_le_left N a), ?_⟩
      · rcases h1 with h | h
        · rw [h]
          rcases min_choice N a with hm | hm
          · exact Or.inl hm
          · exact Or.inr (Or.inl hm)
        · exact Or.inr (Or.inr h)
      · intro x hx
        rcases hx with rfl | hx
        · exact le_trans h2 (min_le_right N x)
        · exact h3 x hx

theorem runLoop_noFault_state (M N : ℚ) (l : List CycleInput) :
    (runLoop (some (M, N)) (l.map (fun i => (i, none)))).1 =
      some ((l.map cycleAvg).foldl max M, (l.map cycleAvg).foldl min N) := by
  induction l generalizing M N with
  | nil => rfl
  | cons i rest ih =>
      simp only [List.map_cons, runLoop, runCycle, cycleBatch_fst,
        updateMinMax_some_eq, List.foldl_cons]
      exact ih (max M (cycleAvg i)) (min N (cycleAvg i))

/-- C5 amended: after every successful cycle, the accumulated `c_max`
(resp. `c_min`) carried into the max and summary records equals the
maximum (resp. minimum) over the per-cycle group averages of all cycles
so far — the averages, not the individual matching Measurement values. -/
theorem min_max_accumulate_cycle_averages (inp0 : CycleInput)
    (inps : List CycleInput) :
    ∃ mx mn,
      (runLoop none (((inp0 :: inps)).map (fun i => (i, none)))).1 =
        some (mx, mn) ∧
      mx ∈ (inp0 :: inps).map cycleAvg ∧
      (∀ a ∈ (inp0 :: inps).map cycleAvg, a ≤ mx) ∧
      mn ∈ (inp0 :: inps).map cycleAvg ∧
      (∀ a ∈ (inp0 :: inps).map cycleAvg, mn ≤ a) := by
  refine ⟨(inps.map cycleAvg).foldl max (cycleAvg inp0),
    (inps.map cycleAvg).foldl min (cycleAvg inp0), ?_, ?_, ?_, ?_, ?_⟩
  · simp only [List.map_cons, runLoop, runCycle, cycleBatch_fst, updateMinMax]
    exact runLoop_noFault_state (cycleAvg inp0) (cycleAvg inp0) inps
  · obtain ⟨h1, _, _⟩ := foldl_max_spec (cycleAvg inp0) (inps.map cycleAvg)
    rcases h1 with h | h
    · rw [h]; exact List.mem_cons_self _ _
    · exact List.mem_cons_of_mem _ h
  · intro a ha
    obtain ⟨_, h2, h3⟩ := foldl_max_spec (cycleAvg inp0) (inps.map cycleAvg)
    rcases List.mem_cons.mp ha with rfl | ha
    · exact h2
    · exact h3 a ha
  · obtain ⟨h1, _, _⟩ := foldl_min_spec (cycleAvg inp0) (inps.map cycleAvg)
    rcases h1 with h | h
    · rw [h]; exact List.mem_cons_self _ _
    · exact List.mem_cons_of_mem _ h
  · intro a ha
    obtain ⟨_, h2, h3⟩ := foldl_min_spec (cycleAvg inp0) (inps.map cycleAvg)
    rcases List.mem_cons.mp ha with rfl | ha
    · exact h2
    · exact h3 a ha

theorem wlanPollLoop_spec (polls : List Bool) :
    countConnectReqs (wlanPollLoop polls).1 = 0 ∧
    ((wlanPollLoop polls).2 = true ↔ true ∈ polls) := by
  induction polls with
  | nil => exact ⟨rfl, by simp [wlanPollLoop]⟩
  | cons b rest ih =>
      cases b with
      | true => exact ⟨rfl, by simp [wlanPollLoop]⟩
      | false =>
          refine ⟨?_, ?_⟩
          · simpa [wlanPollLoop, countConnectReqs] using ih.1
          · simpa [wlanPollLoop] using ih.2

/-- Counterexample to C8 as stated: in a run whose `isconnected` polls
are `[false, false, true]` the function returns (third poll succeeds),
but the whole trace carries a single `wlan.connect` request — the one
issued before the poll loop.  The claimed re-issue on each of the two
timeouts would put at least two requests in the trace. -/
theorem connect_request_not_reissued :
    (connect_to_wlan [false, false, true]).2 = true ∧
    countConnectReqs (connect_to_wlan [false, false, true]).1 = 1 ∧
    ¬ 2 ≤ countConnectReqs (connect_to_wlan [false, false, true]).1 := by
  decide

/-- C8 amended: `connect_to_wlan` never returns failure — it returns
only once the `isconnected` predicate holds — but the connect request is
issued exactly once, before the poll loop, and is never re-issued on a
poll timeout; each timeout only emits the retry flash pattern and
sleeps. -/
theorem connect_returns_only_connected_single_request (polls : List Bool) :
    countConnectReqs (connect_to_wlan polls).1 = 1 ∧
    ((connect_to_wlan polls).2 = true ↔ true ∈ polls) := by
  obtain ⟨h1, h2⟩ := wlanPollLoop_spec polls
  constructor
  · simpa [connect_to_wlan, countConnectReqs] using h1
  · simpa [connect_to_wlan] using h2

/-- C9: the resolution read is wrong in the code.  Python parses
`read_scratch(rom)[4] & 0x60 >> 5` as `byte4 & (0x60 >> 5)` = `byte4 & 3`,
the low two bits of the configuration byte, not the 2-bit resolution
code in bits 5-6 that the mask `0x60` and shift `5` intend.  On a device
configured for 9-bit resolution (configuration byte `0x1F`) the code
reports code 3 where the intended extraction gives 0; the
`resolution_bits` field `code*9 + 9` then reports 36.  (The result is
still always in `{0,1,2,3}`.) -/
theorem get_resolution_precedence_bug :
    get_resolution 0x1F = 3 ∧
    resolution_code_intended 0x1F = 0 ∧
    get_resolution 0x1F ≠ resolution_code_intended 0x1F ∧
    get_resolution 0x1F * 9 + 9 = 36 ∧
    (∀ b : Nat, get_resolution b ≤ 3) := by
  refine ⟨rfl, rfl, by decide, rfl, ?_⟩
  intro b
  have : get_resolution b = b % 4 := by
    show b &&& 3 = b % 4
    have h := Nat.and_pow_two_sub_one_eq_mod b 2
    simpa using h
  rw [this]
  have := Nat.mod_lt b (show 0 < 4 by decide)
  omega
